import Mathlib

/-!
Shallow embedding of the local content-addressed vault subsystem of
`src/CloudStore.py` (class `CloudStorage`), together with its configuration
loader `_load_config`.

Modelling choices:
* The SQLite table `files` is a list of `FileRecord`s in insertion (rowid)
  order, together with the next AUTOINCREMENT id.
* File bytes are `List Nat`; the filesystem visible to the vault is a map
  from path strings to optional byte contents (`none` = no file there).
* `hashlib.md5` and `mimetypes.guess_type` are external library calls, not
  code of this repository; they are abstracted as the fields of `Env`:
  `md5Hex` maps the full byte stream of a file to its hex digest (the
  chunked streaming in `_get_file_hash` computes exactly the digest of the
  concatenation of the chunks, i.e. of the whole content), and `guessMime`
  returns `mimetypes.guess_type(path)[0]`.
* `uuid.uuid4()` and `datetime.datetime.utcnow()` are nondeterministic
  inputs, passed as explicit arguments (`freshUuid`, timestamps as `Nat`).
* The module constant `LOCAL_ONLY` is `True` in the source, so `upload_file`
  and `download_file` always take their local-vault branches; the remote
  HTTP branches are dead code and are not modelled.
* Raised exceptions are modelled by `Err`; every operation returns the
  resulting database state, so "the store is unchanged" is statable.
-/

namespace CloudStore

/-- A byte string (the content of a file), one natural per byte. -/
abbrev Bytes := List Nat

/-- The filesystem as the vault sees it: bytes at a path, or `none` when no
file exists at that path (`os.path.exists` false / `open` fails). -/
abbrev FS := String → Option Bytes

/-- External library helpers used by `CloudStorage`:
`md5Hex` models `hashlib.md5(<full content>).hexdigest()` as computed by
`_get_file_hash` (src/CloudStore.py lines 123-129), and `guessMime` models
`mimetypes.guess_type(path)[0]`. -/
structure Env where
  md5Hex : Bytes → String
  guessMime : String → Option String

/-- Module constant `LOCAL_ONLY = True` (src/CloudStore.py line 34). -/
def LOCAL_ONLY : Bool := true

/-- One row of the `files` table (schema at src/CloudStore.py lines 90-121).
`file_data` is the BLOB column and may be NULL (`none`); `local_path` is a
nullable TEXT column. Rows written by `upload_file` always populate every
field, but the schema admits legacy rows with NULL blobs. -/
structure FileRecord where
  id : Nat
  local_name : String
  cloud_id : String
  cloud_name : String
  file_size : Nat
  file_mime : String
  file_hash : String
  upload_date : Nat
  last_sync : Nat
  local_path : Option String
  is_synced : Bool
  file_data : Option Bytes
  deriving DecidableEq, Repr

/-- The `files` table in rowid (insertion) order plus the AUTOINCREMENT
counter. -/
structure DB where
  files : List FileRecord
  next_id : Nat
  deriving DecidableEq, Repr

/-- The exceptions the vault raises (src/CloudStore.py lines 153, 166, 229,
248). The spec names them NotFoundError, DuplicateContentError and
UnrecoverableContentError. -/
inductive Err where
  /-- `Exception("File does not exist")` — upload source missing. -/
  | fileNotFound
  /-- `Exception("File already exists with same content")`. -/
  | duplicateContent
  /-- `Exception("File record not found")` — download of unknown cloud_id. -/
  | recordNotFound
  /-- `Exception("This entry has no stored file data and the original path
  no longer exists. ...")`. -/
  | unrecoverableContent
  deriving DecidableEq, Repr

/-- `Path(file_path).name`: the final component of the path. -/
def baseName (p : String) : String :=
  (p.splitOn "/").getLastD p

/-- The row `upload_file` INSERTs (src/CloudStore.py lines 197-215), with
the values computed earlier in the call: `cloud_name` defaulted to the
path's base name when falsy (line 155-156), `cloud_id = uuid4()` and
`is_synced = 0` from the LOCAL_ONLY branch (lines 170-171), the MIME type
from `mimetypes.guess_type` with the octet-stream fallback (line 207), and
`file_data = file_path.read_bytes()` (line 196). -/
def uploadRec (env : Env) (db : DB) (file_path : String)
    (cloud_name : Option String) (freshUuid : String) (nowU nowS : Nat)
    (content : Bytes) : FileRecord :=
  { id := db.next_id
    local_name := baseName file_path
    cloud_id := freshUuid
    cloud_name :=
      match cloud_name with
      | none => baseName file_path
      | some s => if s = "" then baseName file_path else s
    file_size := content.length
    file_mime :=
      match env.guessMime file_path with
      | some m => m
      | none => "application/octet-stream"
    file_hash := env.md5Hex content
    upload_date := nowU
    last_sync := nowS
    local_path := some file_path
    is_synced := false
    file_data := some content }

/-- `upload_file` (src/CloudStore.py lines 149-217), local-only branch.
Arguments mirror the nondeterministic inputs of one call: `freshUuid` is
the `uuid.uuid4()` value, `nowU` and `nowS` the two `utcnow()` calls for
`upload_date` and `last_sync`. Returns the resulting table state and either
the `{"id": ..., "name": ...}` result dict or the raised exception. The
hash is computed from `fs file_path` and the blob is `fs file_path` as
well: the filesystem is fixed for the duration of the call. -/
def upload_file (env : Env) (fs : FS) (db : DB) (file_path : String)
    (cloud_name : Option String) (freshUuid : String) (nowU nowS : Nat) :
    DB × Except Err (String × String) :=
  match fs file_path with
  | none => (db, Except.error Err.fileNotFound)
  | some content =>
    let file_hash := env.md5Hex content
    -- `SELECT id FROM files WHERE file_hash = ?` then `if existing: raise`
    if db.files.any (fun r => r.file_hash == file_hash) then
      (db, Except.error Err.duplicateContent)
    else
      let newRec := uploadRec env db file_path cloud_name freshUuid nowU nowS content
      ({ files := db.files ++ [newRec], next_id := db.next_id + 1 },
       Except.ok (newRec.cloud_id, newRec.cloud_name))

/-- `download_file` (src/CloudStore.py lines 219-248), local-only branch.
Returns the resulting table state and either the bytes written to
`local_path` (the destination) or the raised exception. `fs` is the
filesystem used for the backfill lookup of the record's stored
`local_path`; `now` is the `utcnow()` used to refresh `last_sync` on the
backfill path. The row is found by
`SELECT local_path, file_data FROM files WHERE cloud_id = ?` (first row in
rowid order); the backfill `UPDATE ... WHERE cloud_id = ?` touches every
row with that `cloud_id`. -/
def download_file (db : DB) (fs : FS) (cloud_id : String) (now : Nat) :
    DB × Except Err Bytes :=
  match db.files.find? (fun r => r.cloud_id == cloud_id) with
  | none => (db, Except.error Err.recordNotFound)
  | some r =>
    match r.file_data with
    | some blob => (db, Except.ok blob)
    | none =>
      -- `if local_src and os.path.exists(local_src)` (None and "" are falsy)
      match r.local_path with
      | some p =>
        if p ≠ "" then
          match fs p with
          | some data =>
            ({ db with
                files := db.files.map (fun q =>
                  if q.cloud_id == cloud_id then
                    { q with file_data := some data, last_sync := now }
                  else q) },
             Except.ok data)
          | none => (db, Except.error Err.unrecoverableContent)
        else (db, Except.error Err.unrecoverableContent)
      | none => (db, Except.error Err.unrecoverableContent)

/-- `remove_local_file` (src/CloudStore.py lines 294-297):
`DELETE FROM files WHERE id = ?`. There is no existence check and no error
path; the function is total. -/
def remove_local_file (db : DB) (file_id : Nat) : DB :=
  { db with files := db.files.filter (fun r => r.id != file_id) }

/-- Insert a record into a list already sorted by `upload_date` descending,
keeping it sorted (auxiliary for `get_local_files`). -/
def insertByDateDesc (r : FileRecord) : List FileRecord → List FileRecord
  | [] => [r]
  | x :: xs =>
    if r.upload_date ≤ x.upload_date then x :: insertByDateDesc r xs
    else r :: x :: xs

/-- Sort a list of records by `upload_date` descending (insertion sort),
realising SQLite's `ORDER BY upload_date DESC` contract. -/
def sortByDateDesc : List FileRecord → List FileRecord
  | [] => []
  | x :: xs => insertByDateDesc x (sortByDateDesc xs)

/-- `get_local_files` (src/CloudStore.py lines 285-292):
`SELECT * FROM files ORDER BY upload_date DESC`. A pure function of the
table state, so repeated calls with no intervening mutation agree. -/
def get_local_files (db : DB) : List FileRecord :=
  sortByDateDesc db.files

/-! ### The destination write of `download_file`

`download_file` writes the bytes with `open(local_path, 'wb')` followed by
`f.write(...)` (src/CloudStore.py lines 234-235 and 241-242): the open in
mode `'wb'` truncates the destination to empty immediately, then the bytes
are written. There is no temporary file and no rename. The successive
states of the destination file during this write are therefore the
prefixes of the payload, starting from the empty file left by the
truncating open. -/

/-- The sequence of states of the destination file while `download_file`
executes `open(local_path, 'wb'); f.write(data)`: after the open and after
each written byte. Each state is `some` content (the file exists from the
moment of the truncating open). -/
def downloadWriteStates (data : Bytes) : List (Option Bytes) :=
  (List.range (data.length + 1)).map (fun k => some (data.take k))

/-! ### Configuration loading (`_load_config`) -/

/-- The in-memory configuration dict with the recognized keys
(src/CloudStore.py lines 62-70). -/
structure Config where
  cloud_server_url : String
  api_key : String
  upload_endpoint : String
  download_endpoint : String
  list_endpoint : String
  delete_endpoint : String
  timeout : Nat
  deriving DecidableEq, Repr

/-- `default_config` (src/CloudStore.py lines 62-70). -/
def default_config : Config :=
  { cloud_server_url := "https://your-cloud-server.com/api"
    api_key := "your-api-key-here"
    upload_endpoint := "/upload"
    download_endpoint := "/download"
    list_endpoint := "/list"
    delete_endpoint := "/delete"
    timeout := 30 }

/-- A parsed settings file: each recognized key is present (`some`) or
absent (`none`). Unrecognized keys in the JSON do not affect the
recognized ones under `{**default_config, **config}` and are not
modelled. -/
structure ConfigFile where
  cloud_server_url : Option String
  api_key : Option String
  upload_endpoint : Option String
  download_endpoint : Option String
  list_endpoint : Option String
  delete_endpoint : Option String
  timeout : Option Nat
  deriving DecidableEq, Repr

/-- The settings file with every recognized key present at its default
value: what `json.dump(default_config, f)` writes. -/
def defaultConfigFile : ConfigFile :=
  { cloud_server_url := some default_config.cloud_server_url
    api_key := some default_config.api_key
    upload_endpoint := some default_config.upload_endpoint
    download_endpoint := some default_config.download_endpoint
    list_endpoint := some default_config.list_endpoint
    delete_endpoint := some default_config.delete_endpoint
    timeout := some default_config.timeout }

/-- The state of the settings file on disk: absent, present but not
parseable as a JSON object, or parsed. -/
inductive ConfigFileState where
  | missing
  | corrupt
  | parsed (c : ConfigFile)
  deriving DecidableEq, Repr

/-- `{**default_config, **config}` restricted to the recognized keys: a key
present in the file wins, an absent key takes its default. -/
def mergeConfig (c : ConfigFile) : Config :=
  { cloud_server_url :=
      match c.cloud_server_url with
      | some v => v
      | none => default_config.cloud_server_url
    api_key :=
      match c.api_key with
      | some v => v
      | none => default_config.api_key
    upload_endpoint :=
      match c.upload_endpoint with
      | some v => v
      | none => default_config.upload_endpoint
    download_endpoint :=
      match c.download_endpoint with
      | some v => v
      | none => default_config.download_endpoint
    list_endpoint :=
      match c.list_endpoint with
      | some v => v
      | none => default_config.list_endpoint
    delete_endpoint :=
      match c.delete_endpoint with
      | some v => v
      | none => default_config.delete_endpoint
    timeout :=
      match c.timeout with
      | some v => v
      | none => default_config.timeout }

/-- `_load_config` (src/CloudStore.py lines 60-84). Returns the config the
constructor will use and the state of the settings file afterwards.
A parseable file is loaded and merged over the defaults, and the file is
left untouched; a missing file — and also a file whose load raises, which
the `except` swallows before falling through — is (re)written with the
defaults, and the defaults are returned. -/
def load_config : ConfigFileState → Config × ConfigFileState
  | ConfigFileState.parsed c => (mergeConfig c, ConfigFileState.parsed c)
  | ConfigFileState.corrupt =>
      (default_config, ConfigFileState.parsed defaultConfigFile)
  | ConfigFileState.missing =>
      (default_config, ConfigFileState.parsed defaultConfigFile)

/-! ### Store invariant: content hashes are unique across rows -/

/-- No two rows of the table share a `file_hash` — the dedup invariant the
`upload_file` duplicate check maintains. -/
def HashesUnique (db : DB) : Prop :=
  db.files.Pairwise (fun a b => a.file_hash ≠ b.file_hash)

instance (db : DB) : Decidable (HashesUnique db) := by
  unfold HashesUnique
  infer_instance

/-! ### Concrete test fixtures (used by the witnesses) -/

/-- A concrete stand-in for the external hash/MIME helpers: the digest of a
byte string is the decimal rendering of its length. -/
def envW : Env :=
  { md5Hex := fun b => toString b.length
    guessMime := fun _ => none }

/-- A concrete filesystem holding a two-byte file at `f` and a three-byte
file at `g`. -/
def fsW : FS := fun p =>
  if p = "f" then some [5, 6]
  else if p = "g" then some [7, 8, 9]
  else none

/-- The empty filesystem: every path is missing. -/
def fsEmptyW : FS := fun _ => none

/-- A concrete row holding the blob `[5, 6]` and its `envW` digest. -/
def recW : FileRecord :=
  { id := 1
    local_name := "f"
    cloud_id := "cid-0"
    cloud_name := "f"
    file_size := 2
    file_mime := "application/octet-stream"
    file_hash := "2"
    upload_date := 1
    last_sync := 1
    local_path := some "f"
    is_synced := false
    file_data := some [5, 6] }

/-- A concrete store holding exactly `recW`. -/
def dbW : DB := { files := [recW], next_id := 2 }

/-- The empty store. -/
def dbEmptyW : DB := { files := [], next_id := 1 }

/-- A concrete row with a NULL blob whose original source path is `f`: the
shape of a legacy row created before the vault stored bytes. -/
def recNoBlobW : FileRecord :=
  { id := 1
    local_name := "f"
    cloud_id := "cid-1"
    cloud_name := "f"
    file_size := 2
    file_mime := "application/octet-stream"
    file_hash := "2"
    upload_date := 1
    last_sync := 1
    local_path := some "f"
    is_synced := false
    file_data := none }

/-- A concrete store holding exactly the blob-less row. -/
def dbNoBlobW : DB := { files := [recNoBlobW], next_id := 2 }

/-- A second concrete row, created later than `recW`. -/
def recLaterW : FileRecord :=
  { id := 2
    local_name := "g"
    cloud_id := "cid-2"
    cloud_name := "g"
    file_size := 3
    file_mime := "application/octet-stream"
    file_hash := "3"
    upload_date := 5
    last_sync := 5
    local_path := some "g"
    is_synced := false
    file_data := some [7, 8, 9] }

/-- A concrete two-row store in creation order (`recW` first). -/
def dbTwoW : DB := { files := [recW, recLaterW], next_id := 3 }

/-- A concrete settings file carrying only the timeout key. -/
def cfgW : ConfigFile :=
  { cloud_server_url := none
    api_key := none
    upload_endpoint := none
    download_endpoint := none
    list_endpoint := none
    delete_endpoint := none
    timeout := some 5 }

/-! ### Helper lemmas -/

/-- Evaluation of `download_file` when the row found for `cloud_id` has a
non-null blob: the blob is returned and the store is untouched. -/
theorem download_file_blob {db : DB} {fs : FS} {cid : String} {now : Nat}
    {r : FileRecord} {blob : Bytes}
    (hfind : db.files.find? (fun q => q.cloud_id == cid) = some r)
    (hblob : r.file_data = some blob) :
    download_file db fs cid now = (db, Except.ok blob) := by
  simp [download_file, hfind, hblob]

/-- In a list whose hashes are pairwise distinct, the count of rows carrying
the hash of a member `r` is exactly one. -/
theorem countP_hash_eq_one {l : List FileRecord} {r : FileRecord} {h : String}
    (hp : l.Pairwise (fun a b => a.file_hash ≠ b.file_hash))
    (hm : r ∈ l) (hh : r.file_hash = h) :
    l.countP (fun q => q.file_hash == h) = 1 := by
  induction l with
  | nil => cases hm
  | cons x xs ih =>
    rcases List.pairwise_cons.mp hp with ⟨hx, hxs⟩
    rcases List.mem_cons.mp hm with rfl | hm'
    · have hcount0 : xs.countP (fun q => q.file_hash == h) = 0 := by
        rw [List.countP_eq_zero]
        intro q hq
        have : r.file_hash ≠ q.file_hash := hx q hq
        simp only [beq_iff_eq]
        intro hq'
        exact this (by rw [hh, ← hq'])
      rw [List.countP_cons]
      simp [hcount0, hh]
    · have hx' : x.file_hash ≠ h := by
        intro hxh
        exact (hx r hm') (by rw [hxh, hh])
      rw [List.countP_cons]
      simp [hx', ih hxs hm']

/-- `find?` skips a prefix on which the predicate is everywhere false. -/
theorem find?_append_right {l₁ l₂ : List FileRecord} {p : FileRecord → Bool}
    (h : ∀ x ∈ l₁, p x = false) :
    (l₁ ++ l₂).find? p = l₂.find? p := by
  induction l₁ with
  | nil => rfl
  | cons x xs ih =>
    have hx : p x = false := h x (List.mem_cons_self x xs)
    simp only [List.cons_append, List.find?_cons, hx]
    exact ih (fun y hy => h y (List.mem_cons_of_mem x hy))

/-- Mapping a function that both preserves and reflects the searched-for
predicate commutes with `find?`. -/
theorem find?_map_congr {l : List FileRecord} {p : FileRecord → Bool}
    {f : FileRecord → FileRecord} {r : FileRecord}
    (hpf : ∀ x, p (f x) = p x)
    (hfind : l.find? p = some r) :
    (l.map f).find? p = some (f r) := by
  induction l with
  | nil => simp at hfind
  | cons x xs ih =>
    by_cases hx : p x = true
    · have : r = x := by
        simp only [List.find?_cons, hx] at hfind
        exact (Option.some_inj.mp hfind).symm
      subst this
      simp [List.find?_cons, hpf, hx]
    · have hx' : p x = false := Bool.not_eq_true _ ▸ eq_false_of_ne_true hx
      simp only [List.find?_cons, hx'] at hfind
      have := ih hfind
      simp only [List.map_cons, List.find?_cons, hpf, hx']
      exact this

/-- `insertByDateDesc` produces a permutation of consing. -/
theorem insertByDateDesc_perm (r : FileRecord) (l : List FileRecord) :
    (insertByDateDesc r l).Perm (r :: l) := by
  induction l with
  | nil => simp [insertByDateDesc]
  | cons x xs ih =>
    simp only [insertByDateDesc]
    by_cases hc : r.upload_date ≤ x.upload_date
    · simp only [hc, if_true]
      exact (ih.cons x).trans (List.Perm.swap r x xs)
    · simp [hc]

/-- `sortByDateDesc` is a permutation of its input: the listing shows every
row exactly once. -/
theorem sortByDateDesc_perm (l : List FileRecord) :
    (sortByDateDesc l).Perm l := by
  induction l with
  | nil => simp [sortByDateDesc]
  | cons x xs ih =>
    simp only [sortByDateDesc]
    exact (insertByDateDesc_perm x (sortByDateDesc xs)).trans (ih.cons x)

/-- Inserting keeps the descending-by-`upload_date` ordering. -/
theorem insertByDateDesc_sorted {l : List FileRecord} (r : FileRecord)
    (hl : l.Pairwise (fun a b => b.upload_date ≤ a.upload_date)) :
    (insertByDateDesc r l).Pairwise (fun a b => b.upload_date ≤ a.upload_date) := by
  induction l with
  | nil => simp [insertByDateDesc]
  | cons x xs ih =>
    rcases List.pairwise_cons.mp hl with ⟨hx, hxs⟩
    simp only [insertByDateDesc]
    by_cases hc : r.upload_date ≤ x.upload_date
    · simp only [hc, if_true]
      refine List.pairwise_cons.mpr ⟨?_, ih hxs⟩
      intro y hy
      rcases List.mem_cons.mp ((insertByDateDesc_perm r xs).mem_iff.mp hy) with rfl | hy'
      · exact hc
      · exact hx y hy'
    · simp only [hc, if_false]
      push_neg at hc
      refine List.pairwise_cons.mpr ⟨?_, hl⟩
      intro y hy
      rcases List.mem_cons.mp hy with rfl | hy'
      · exact le_of_lt hc
      · exact le_trans (hx y hy') (le_of_lt hc)

/-- The listing is sorted most-recent-first. -/
theorem sortByDateDesc_sorted (l : List FileRecord) :
    (sortByDateDesc l).Pairwise (fun a b => b.upload_date ≤ a.upload_date) := by
  induction l with
  | nil => simp [sortByDateDesc]
  | cons x xs ih =>
    simp only [sortByDateDesc]
    exact insertByDateDesc_sorted x ih

/-- Inserting a record strictly older than every list member appends it. -/
theorem insertByDateDesc_append {l : List FileRecord} {r : FileRecord}
    (h : ∀ x ∈ l, r.upload_date ≤ x.upload_date) :
    insertByDateDesc r l = l ++ [r] := by
  induction l with
  | nil => simp [insertByDateDesc]
  | cons x xs ih =>
    have hx : r.upload_date ≤ x.upload_date := h x (List.mem_cons_self x xs)
    simp only [insertByDateDesc, hx, if_true, List.cons_append]
    rw [ih (fun y hy => h y (List.mem_cons_of_mem x hy))]

/-- Evaluation of `upload_file` on a fresh content: the new row is appended
and the result dict is returned. -/
theorem upload_file_ok (env : Env) (fs : FS) (db : DB) (file_path : String)
    (cloud_name : Option String) (freshUuid : String) (nowU nowS : Nat)
    (content : Bytes)
    (hfs : fs file_path = some content)
    (hnodup : ∀ r ∈ db.files, r.file_hash ≠ env.md5Hex content) :
    upload_file env fs db file_path cloud_name freshUuid nowU nowS =
      ({ files := db.files ++
            [uploadRec env db file_path cloud_name freshUuid nowU nowS content],
         next_id := db.next_id + 1 },
       Except.ok
         ((uploadRec env db file_path cloud_name freshUuid nowU nowS content).cloud_id,
          (uploadRec env db file_path cloud_name freshUuid nowU nowS content).cloud_name)) := by
  have hany : db.files.any (fun r => r.file_hash == env.md5Hex content) = false := by
    rw [List.any_eq_false]
    intro r hr
    simpa using hnodup r hr
  unfold upload_file
  rw [hfs]
  simp [hany]

/-- Sorting a list whose `upload_date`s strictly increase along insertion
order reverses it: the most recently inserted row comes first. -/
theorem sortByDateDesc_of_strictMono {l : List FileRecord}
    (h : l.Pairwise (fun a b => a.upload_date < b.upload_date)) :
    sortByDateDesc l = l.reverse := by
  induction l with
  | nil => rfl
  | cons x xs ih =>
    rcases List.pairwise_cons.mp h with ⟨hx, hxs⟩
    simp only [sortByDateDesc, List.reverse_cons]
    rw [ih hxs]
    refine insertByDateDesc_append ?_
    intro y hy
    exact le_of_lt (hx y (List.mem_reverse.mp hy))

/-! ### Claim theorems -/

/-- C1: if some stored row already carries the content hash of the file
being uploaded, `upload_file` fails with the duplicate-content error under
any display name, the store is returned unchanged (no row inserted or
merged), and — the stored hashes being pairwise distinct, the invariant the
dedup check maintains — exactly one row carries that hash afterwards. -/
theorem upload_duplicate_rejected
    (env : Env) (fs : FS) (db : DB) (file_path : String)
    (cloud_name : Option String) (freshUuid : String) (nowU nowS : Nat)
    (content : Bytes) (r : FileRecord)
    (hfs : fs file_path = some content)
    (hr : r ∈ db.files) (hh : r.file_hash = env.md5Hex content)
    (huniq : HashesUnique db) :
    upload_file env fs db file_path cloud_name freshUuid nowU nowS
      = (db, Except.error Err.duplicateContent) ∧
    db.files.countP (fun q => q.file_hash == env.md5Hex content) = 1 := by
  constructor
  · have hany : db.files.any (fun q => q.file_hash == env.md5Hex content) = true := by
      rw [List.any_eq_true]
      exact ⟨r, hr, by simp [hh]⟩
    unfold upload_file
    rw [hfs]
    simp [hany]
  · exact countP_hash_eq_one huniq hr hh

/-- Witness for C1 at a concrete store holding one row with the hash of the
two-byte file at path `f`. -/
theorem upload_duplicate_rejected_witness :
    (fsW "f" = some [5, 6]) ∧ recW ∈ dbW.files ∧
    recW.file_hash = envW.md5Hex [5, 6] ∧ HashesUnique dbW ∧
    (upload_file envW fsW dbW "f" (some "other-name") "uuid-1" 3 4
        = (dbW, Except.error Err.duplicateContent) ∧
      dbW.files.countP (fun q => q.file_hash == envW.md5Hex [5, 6]) = 1) :=
  ⟨rfl, by decide, by decide, by decide,
   upload_duplicate_rejected envW fsW dbW "f" (some "other-name") "uuid-1" 3 4
     [5, 6] recW rfl (by decide) (by decide) (by decide)⟩

/-- C2: create-then-fetch is a round trip: uploading a file and then
downloading the record by the returned id writes exactly the uploaded
bytes to the destination and leaves the store unchanged, for any
filesystem at fetch time. Hypotheses: the source exists, its hash is not
already stored (else create fails), and the generated uuid is fresh (as
`uuid4` values are). -/
theorem upload_download_roundtrip
    (env : Env) (fs fs2 : FS) (db : DB) (file_path : String)
    (cloud_name : Option String) (freshUuid : String) (nowU nowS now2 : Nat)
    (content : Bytes)
    (hfs : fs file_path = some content)
    (hnodup : ∀ r ∈ db.files, r.file_hash ≠ env.md5Hex content)
    (hfresh : ∀ r ∈ db.files, r.cloud_id ≠ freshUuid) :
    (∃ name, (upload_file env fs db file_path cloud_name freshUuid nowU nowS).2
        = Except.ok (freshUuid, name)) ∧
    download_file (upload_file env fs db file_path cloud_name freshUuid nowU nowS).1
        fs2 freshUuid now2
      = ((upload_file env fs db file_path cloud_name freshUuid nowU nowS).1,
         Except.ok content) := by
  rw [upload_file_ok env fs db file_path cloud_name freshUuid nowU nowS content hfs hnodup]
  refine ⟨⟨(uploadRec env db file_path cloud_name freshUuid nowU nowS content).cloud_name, rfl⟩, ?_⟩
  have hfind :
      ((db.files ++ [uploadRec env db file_path cloud_name freshUuid nowU nowS content]).find?
        (fun r => r.cloud_id == freshUuid))
      = some (uploadRec env db file_path cloud_name freshUuid nowU nowS content) := by
    rw [find?_append_right (fun x hx => by simpa using hfresh x hx)]
    simp [uploadRec]
  exact download_file_blob hfind rfl

/-- Witness for C2: round trip of the three-byte file at path `g` through
an empty store. -/
theorem upload_download_roundtrip_witness :
    (fsW "g" = some [7, 8, 9]) ∧
    (∀ r ∈ dbEmptyW.files, r.file_hash ≠ envW.md5Hex [7, 8, 9]) ∧
    (∀ r ∈ dbEmptyW.files, r.cloud_id ≠ "uuid-2") ∧
    ((∃ name, (upload_file envW fsW dbEmptyW "g" none "uuid-2" 1 1).2
        = Except.ok ("uuid-2", name)) ∧
      download_file (upload_file envW fsW dbEmptyW "g" none "uuid-2" 1 1).1
          fsEmptyW "uuid-2" 9
        = ((upload_file envW fsW dbEmptyW "g" none "uuid-2" 1 1).1,
           Except.ok [7, 8, 9])) :=
  ⟨rfl, by decide, by decide,
   upload_download_roundtrip envW fsW fsEmptyW dbEmptyW "g" none "uuid-2" 1 1 9
     [7, 8, 9] rfl (by decide) (by decide)⟩

/-- C10: every row inserted by a successful `upload_file` holds a non-null
blob equal to the full bytes of the source file, and its stored hash is
the digest of those stored bytes — the row is consistent with its own
hash. -/
theorem upload_record_consistent
    (env : Env) (fs : FS) (db : DB) (file_path : String)
    (cloud_name : Option String) (freshUuid : String) (nowU nowS : Nat)
    (content : Bytes)
    (hfs : fs file_path = some content)
    (hnodup : ∀ r ∈ db.files, r.file_hash ≠ env.md5Hex content) :
    ∃ rec,
      (upload_file env fs db file_path cloud_name freshUuid nowU nowS).1.files
        = db.files ++ [rec] ∧
      (upload_file env fs db file_path cloud_name freshUuid nowU nowS).2
        = Except.ok (rec.cloud_id, rec.cloud_name) ∧
      rec.file_data = some content ∧
      ∀ b, rec.file_data = some b → rec.file_hash = env.md5Hex b := by
  rw [upload_file_ok env fs db file_path cloud_name freshUuid nowU nowS content hfs hnodup]
  refine ⟨uploadRec env db file_path cloud_name freshUuid nowU nowS content,
    rfl, rfl, rfl, ?_⟩
  intro b hb
  have : content = b := by simpa [uploadRec] using hb
  subst this
  rfl

/-- Witness for C10: uploading the three-byte file at path `g` into an
empty store. -/
theorem upload_record_consistent_witness :
    (fsW "g" = some [7, 8, 9]) ∧
    (∀ r ∈ dbEmptyW.files, r.file_hash ≠ envW.md5Hex [7, 8, 9]) ∧
    (∃ rec,
      (upload_file envW fsW dbEmptyW "g" none "uuid-2" 1 1).1.files
        = dbEmptyW.files ++ [rec] ∧
      (upload_file envW fsW dbEmptyW "g" none "uuid-2" 1 1).2
        = Except.ok (rec.cloud_id, rec.cloud_name) ∧
      rec.file_data = some [7, 8, 9] ∧
      ∀ b, rec.file_data = some b → rec.file_hash = envW.md5Hex b) :=
  ⟨rfl, by decide,
   upload_record_consistent envW fsW dbEmptyW "g" none "uuid-2" 1 1
     [7, 8, 9] rfl (by decide)⟩

/-- C7: fetching a record whose blob is present returns exactly the blob
and leaves the whole store — hence the record and every one of its fields,
including `last_sync` and `file_data` — unchanged, for any filesystem and
clock value. -/
theorem fetch_blob_present_frame
    (db : DB) (fs : FS) (cid : String) (now : Nat)
    (r : FileRecord) (blob : Bytes)
    (hfind : db.files.find? (fun q => q.cloud_id == cid) = some r)
    (hblob : r.file_data = some blob) :
    download_file db fs cid now = (db, Except.ok blob) :=
  download_file_blob hfind hblob

/-- Witness for C7 at a concrete one-row store whose row holds a blob. -/
theorem fetch_blob_present_frame_witness :
    (dbW.files.find? (fun q => q.cloud_id == "cid-0") = some recW) ∧
    (recW.file_data = some [5, 6]) ∧
    download_file dbW fsEmptyW "cid-0" 42 = (dbW, Except.ok [5, 6]) :=
  ⟨by decide, by decide,
   fetch_blob_present_frame dbW fsEmptyW "cid-0" 42 recW [5, 6]
     (by decide) (by decide)⟩

/-- C3: on a row with a NULL blob whose original source path still resolves,
the first fetch succeeds with those bytes and persists them into the row
(`file_data` filled, `last_sync` refreshed); a second fetch of the same id,
after the original path is gone, still succeeds from the backfilled
blob. -/
theorem fetch_backfill_persists
    (db : DB) (fs1 fs2 : FS) (cid : String) (now1 now2 : Nat)
    (r : FileRecord) (p : String) (data : Bytes)
    (hfind : db.files.find? (fun q => q.cloud_id == cid) = some r)
    (hblob : r.file_data = none)
    (hpath : r.local_path = some p) (hp : p ≠ "")
    (hfs1 : fs1 p = some data)
    (hfs2 : fs2 p = none) :
    ∃ db1,
      download_file db fs1 cid now1 = (db1, Except.ok data) ∧
      db1.files.find? (fun q => q.cloud_id == cid)
        = some { r with file_data := some data, last_sync := now1 } ∧
      download_file db1 fs2 cid now2 = (db1, Except.ok data) := by
  have hrcid0 := List.find?_some hfind
  have hrcid : (r.cloud_id == cid) = true := by simpa using hrcid0
  have hpf : ∀ x : FileRecord,
      (((fun q => if q.cloud_id == cid
          then { q with file_data := some data, last_sync := now1 } else q) x).cloud_id
        == cid) = (x.cloud_id == cid) := by
    intro x
    by_cases hx : (x.cloud_id == cid) = true <;> simp [hx]
  have hfind1 :
      ((db.files.map (fun q => if q.cloud_id == cid
          then { q with file_data := some data, last_sync := now1 } else q)).find?
        (fun q => q.cloud_id == cid))
      = some { r with file_data := some data, last_sync := now1 } := by
    have h := find?_map_congr hpf hfind
    simpa [hrcid] using h
  refine ⟨{ db with files := db.files.map (fun q => if q.cloud_id == cid
      then { q with file_data := some data, last_sync := now1 } else q) }, ?_, hfind1, ?_⟩
  · simp [download_file, hfind, hblob, hpath, hp, hfs1]
  · exact download_file_blob hfind1 rfl

/-- Witness for C3 at a concrete blob-less row backed by path `f`, which
exists at the first fetch and is gone at the second. -/
theorem fetch_backfill_persists_witness :
    (dbNoBlobW.files.find? (fun q => q.cloud_id == "cid-1") = some recNoBlobW) ∧
    (recNoBlobW.file_data = none) ∧ (recNoBlobW.local_path = some "f") ∧
    ("f" ≠ "") ∧ (fsW "f" = some [5, 6]) ∧ (fsEmptyW "f" = none) ∧
    (∃ db1,
      download_file dbNoBlobW fsW "cid-1" 7 = (db1, Except.ok [5, 6]) ∧
      db1.files.find? (fun q => q.cloud_id == "cid-1")
        = some { recNoBlobW with file_data := some [5, 6], last_sync := 7 } ∧
      download_file db1 fsEmptyW "cid-1" 8 = (db1, Except.ok [5, 6])) :=
  ⟨by decide, by decide, by decide, by decide, rfl, rfl,
   fetch_backfill_persists dbNoBlobW fsW fsEmptyW "cid-1" 7 8 recNoBlobW "f" [5, 6]
     (by decide) (by decide) (by decide) (by decide) rfl rfl⟩

/-- C4: on a row with a NULL blob whose original source path is NULL, empty
or missing from the filesystem, fetch fails with the unrecoverable-content
error and returns the store exactly as it was: no field of any row is
touched. -/
theorem fetch_unrecoverable_frame
    (db : DB) (fs : FS) (cid : String) (now : Nat) (r : FileRecord)
    (hfind : db.files.find? (fun q => q.cloud_id == cid) = some r)
    (hblob : r.file_data = none)
    (hpath : r.local_path = none ∨
      ∃ p, r.local_path = some p ∧ (p = "" ∨ fs p = none)) :
    download_file db fs cid now = (db, Except.error Err.unrecoverableContent) := by
  rcases hpath with hnone | ⟨p, hp, hcase⟩
  · simp [download_file, hfind, hblob, hnone]
  · rcases hcase with rfl | hfsp
    · simp [download_file, hfind, hblob, hp]
    · by_cases hpe : p = ""
      · subst hpe
        simp [download_file, hfind, hblob, hp]
      · simp [download_file, hfind, hblob, hp, hpe, hfsp]

/-- Witness for C4 at a concrete blob-less row whose source path `f` is
missing from the (empty) filesystem. -/
theorem fetch_unrecoverable_frame_witness :
    (dbNoBlobW.files.find? (fun q => q.cloud_id == "cid-1") = some recNoBlobW) ∧
    (recNoBlobW.file_data = none) ∧
    (recNoBlobW.local_path = none ∨
      ∃ p, recNoBlobW.local_path = some p ∧ (p = "" ∨ fsEmptyW p = none)) ∧
    download_file dbNoBlobW fsEmptyW "cid-1" 7
      = (dbNoBlobW, Except.error Err.unrecoverableContent) :=
  ⟨by decide, by decide, Or.inr ⟨"f", by decide, Or.inr rfl⟩,
   fetch_unrecoverable_frame dbNoBlobW fsEmptyW "cid-1" 7 recNoBlobW
     (by decide) (by decide) (Or.inr ⟨"f", by decide, Or.inr rfl⟩)⟩

/-- C5 counterexample: the claim says delete of an unknown id fails with
`NotFoundError`, but `remove_local_file` runs a bare
`DELETE FROM files WHERE id = ?` with no existence check and no error path
(its embedding is a total function with no error result): deleting id 7
from the empty store completes normally and is a no-op. -/
theorem remove_unknown_id_no_error :
    remove_local_file dbEmptyW 7 = dbEmptyW := by decide

/-- C5 amended: delete never fails. Deleting an id removes every row with
that id from the subsequent `list()` results; deleting an id no row
carries — including a second delete of an already-deleted id, which is the
claim's second-delete scenario — silently leaves the store unchanged
instead of raising `NotFoundError`. -/
theorem remove_local_file_spec (db : DB) (i : Nat) :
    (∀ r ∈ get_local_files (remove_local_file db i), r.id ≠ i) ∧
    ((∀ r ∈ db.files, r.id ≠ i) → remove_local_file db i = db) ∧
    remove_local_file (remove_local_file db i) i = remove_local_file db i := by
  refine ⟨?_, ?_, ?_⟩
  · intro r hr
    have hmem : r ∈ (remove_local_file db i).files :=
      (sortByDateDesc_perm (remove_local_file db i).files).mem_iff.mp hr
    have hpred := List.of_mem_filter hmem
    simpa using hpred
  · intro h
    have hself : db.files.filter (fun r => r.id != i) = db.files :=
      List.filter_eq_self.mpr (fun r hr => by simpa using h r hr)
    cases db with
    | mk files next_id =>
      simp only [remove_local_file] at hself ⊢
      rw [hself]
  · simp [remove_local_file, List.filter_filter]

/-- Witness for C5's amended claim: deleting the absent id 9 from the
one-row store leaves it unchanged. -/
theorem remove_local_file_spec_witness :
    (∀ r ∈ dbW.files, r.id ≠ 9) ∧ remove_local_file dbW 9 = dbW :=
  ⟨by decide, (remove_local_file_spec dbW 9).2.1 (by decide)⟩

/-- C6: the listing returns every stored row exactly once (so every prior
create and delete is reflected — it is computed from the current table
state, and being a pure function of that state it is deterministic),
ordered by `upload_date` descending; when the upload timestamps strictly
increase along insertion order the listing is exactly the reverse of
insertion order, i.e. most-recently-created first. -/
theorem list_returns_all_sorted (db : DB) :
    (get_local_files db).Perm db.files ∧
    (get_local_files db).Pairwise (fun a b => b.upload_date ≤ a.upload_date) ∧
    (db.files.Pairwise (fun a b => a.upload_date < b.upload_date) →
      get_local_files db = db.files.reverse) :=
  ⟨sortByDateDesc_perm db.files, sortByDateDesc_sorted db.files,
   fun h => sortByDateDesc_of_strictMono h⟩

/-- Witness for C6 at the concrete two-row store with increasing upload
dates: the listing is the reverse of insertion order. -/
theorem list_returns_all_sorted_witness :
    (dbTwoW.files.Pairwise (fun a b => a.upload_date < b.upload_date)) ∧
    get_local_files dbTwoW = dbTwoW.files.reverse :=
  ⟨by decide, (list_returns_all_sorted dbTwoW).2.2 (by decide)⟩

/-- C8 counterexample: the destination write of `download_file` is
`open(local_path, 'wb')` then `f.write(...)` — a truncating open directly
on the destination, with no temporary file and no rename. Among the states
the destination passes through while writing the payload `[1, 2]` there is
one (`some [1]`) that is neither absent nor the full stream: a failure at
that point leaves a truncated file, refuting all-or-nothing. -/
theorem fetch_write_truncation_possible :
    ¬ ∀ s ∈ downloadWriteStates [1, 2], s = none ∨ s = some [1, 2] := by
  decide

/-- C8 amended: the write to destinationPath is direct, not
write-then-rename: from the truncating open onwards the destination always
holds some initial segment (`take k`) of the payload — so a failure
mid-write can leave a truncated file — and the completed write's state,
the full payload, is among the states reached. -/
theorem fetch_write_truncated_states (data : Bytes) (s : Option Bytes)
    (hs : s ∈ downloadWriteStates data) :
    (∃ k, s = some (data.take k)) ∧ some data ∈ downloadWriteStates data := by
  constructor
  · rcases List.mem_map.mp hs with ⟨k, _, rfl⟩
    exact ⟨k, rfl⟩
  · simp only [downloadWriteStates, List.mem_map, List.mem_range]
    exact ⟨data.length, Nat.lt_succ_self data.length, by simp⟩

/-- Witness for C8's amended claim at the payload `[1, 2]` and the
truncated state `some [1]`. -/
theorem fetch_write_truncated_states_witness :
    (some [1] ∈ downloadWriteStates [1, 2]) ∧
    ((∃ k, (some [1] : Option Bytes) = some (([1, 2] : Bytes).take k)) ∧
      some [1, 2] ∈ downloadWriteStates [1, 2]) :=
  ⟨by decide, fetch_write_truncated_states [1, 2] (some [1]) (by decide)⟩

/-- C9: a missing settings file is created holding exactly the documented
defaults and the defaults are used; a present (parseable) file is loaded,
left untouched on disk, and each recognized key takes the file's value
when present and the default exactly when absent — the merged value of
every key is `fileValue.getD default`. -/
theorem load_config_defaults (c : ConfigFile) :
    load_config ConfigFileState.missing
      = (default_config, ConfigFileState.parsed defaultConfigFile) ∧
    load_config (ConfigFileState.parsed c)
      = (mergeConfig c, ConfigFileState.parsed c) ∧
    (mergeConfig c).cloud_server_url
      = c.cloud_server_url.getD default_config.cloud_server_url ∧
    (mergeConfig c).api_key = c.api_key.getD default_config.api_key ∧
    (mergeConfig c).upload_endpoint
      = c.upload_endpoint.getD default_config.upload_endpoint ∧
    (mergeConfig c).download_endpoint
      = c.download_endpoint.getD default_config.download_endpoint ∧
    (mergeConfig c).list_endpoint
      = c.list_endpoint.getD default_config.list_endpoint ∧
    (mergeConfig c).delete_endpoint
      = c.delete_endpoint.getD default_config.delete_endpoint ∧
    (mergeConfig c).timeout = c.timeout.getD default_config.timeout := by
  obtain ⟨u, a, ue, de, le, dle, t⟩ := c
  refine ⟨rfl, rfl, ?_, ?_, ?_, ?_, ?_, ?_, ?_⟩
  · cases u <;> rfl
  · cases a <;> rfl
  · cases ue <;> rfl
  · cases de <;> rfl
  · cases le <;> rfl
  · cases dle <;> rfl
  · cases t <;> rfl

/-- Witness for C9 at the concrete settings file carrying only the timeout
key: the present key keeps its file value, an absent key takes its
default. -/
theorem load_config_defaults_witness :
    (mergeConfig cfgW).timeout = cfgW.timeout.getD default_config.timeout ∧
    (mergeConfig cfgW).api_key = cfgW.api_key.getD default_config.api_key :=
  ⟨(load_config_defaults cfgW).2.2.2.2.2.2.2.2,
   (load_config_defaults cfgW).2.2.2.1⟩

end CloudStore
